import Mathlib

/-!
Shallow embedding of the reconciliation and update engine of
rentedrive/salesforce-update-terminated: the normalization, matching,
picklist validation, diff planning, retried update execution and outcome
classification implemented in `lambda_function.update_records` (with the
per-record call `lambda_function.update_record`) and the fetch query built
by `lib.build_soql`.
-/

/-- Numeric value of a digit character. -/
def digitVal (c : Char) : Nat := c.toNat - 48

/-- Gregorian leap-year rule, as enforced by the strict datetime parse. -/
def isLeap (y : Nat) : Bool := (y % 4 == 0 && y % 100 != 0) || (y % 400 == 0)

/-- Days in a month, as enforced by the strict datetime parse. -/
def daysInMonth (y m : Nat) : Nat :=
  if m = 2 then (if isLeap y then 29 else 28)
  else if m = 4 ∨ m = 6 ∨ m = 9 ∨ m = 11 then 30 else 31

/-- Strict parse of the fixed format of
`pd.to_datetime(col, format='%Y-%m-%d %H:%M:%S')` followed by
`.dt.strftime('%Y-%m-%d')` (lambda_function.py lines 250-252): on a string
matching `YYYY-MM-DD HH:MM:SS` with a valid calendar date and time of day it
returns the reformatted date part `YYYY-MM-DD`; on anything else it returns
`none` (the pandas call raises, aborting the batch). -/
def parseDatetimeFixed (s : String) : Option String :=
  match s.toList with
  | [y1, y2, y3, y4, s1, mo1, mo2, s2, d1, d2, s3, h1, h2, s4, mi1, mi2, s5, se1, se2] =>
    if y1.isDigit && y2.isDigit && y3.isDigit && y4.isDigit &&
        s1 == '-' && mo1.isDigit && mo2.isDigit && s2 == '-' &&
        d1.isDigit && d2.isDigit && s3 == ' ' &&
        h1.isDigit && h2.isDigit && s4 == ':' &&
        mi1.isDigit && mi2.isDigit && s5 == ':' &&
        se1.isDigit && se2.isDigit then
      if 1 ≤ digitVal mo1 * 10 + digitVal mo2 && digitVal mo1 * 10 + digitVal mo2 ≤ 12 &&
          1 ≤ digitVal d1 * 10 + digitVal d2 &&
          digitVal d1 * 10 + digitVal d2 ≤
            daysInMonth (((digitVal y1 * 10 + digitVal y2) * 10 + digitVal y3) * 10 +
              digitVal y4) (digitVal mo1 * 10 + digitVal mo2) &&
          digitVal h1 * 10 + digitVal h2 ≤ 23 && digitVal mi1 * 10 + digitVal mi2 ≤ 59 &&
          digitVal se1 * 10 + digitVal se2 ≤ 59 then
        some (String.mk [y1, y2, y3, y4, '-', mo1, mo2, '-', d1, d2])
      else none
    else none
  | _ => none

/-- Date-column normalization (lines 250-252): a null cell passes through as
null; a non-null cell must match the fixed format or the whole batch aborts
(`pd.to_datetime` is called without an error-coercion argument). -/
def normalizeDate : Option String → Except String (Option String)
  | none => .ok none
  | some s =>
    match parseDatetimeFixed s with
    | some d => .ok (some d)
    | none => .error ("NormalizationError: time data " ++ s ++ " does not match format")

/-- Parse of a plain integer literal (optional sign then digits), the
strings accepted by the int conversion underlying `.astype('Int32')`. -/
def parseIntLit (s : String) : Option Int :=
  let digitsParse : List Char → Option Int := fun l =>
    if l ≠ [] ∧ l.all Char.isDigit then
      some ((l.foldl (fun a c => a * 10 + digitVal c) 0 : Nat) : Int)
    else none
  match s.toList with
  | '-' :: rest => (digitsParse rest).map (fun n => -n)
  | '+' :: rest => digitsParse rest
  | l => digitsParse l

/-- Odometer-column normalization (line 253, `.astype('Int32')`): a null cell
stays null; a non-null cell must be an integer literal or the conversion
raises `ValueError`, aborting the batch. -/
def normalizeOdo : Option String → Except String (Option Int)
  | none => .ok none
  | some s =>
    match parseIntLit s with
    | some n => .ok (some n)
    | none => .error ("ValueError: invalid literal " ++ s)

/-- Parse of a plain decimal literal, modelling the numeric strings accepted
by `pd.to_numeric` (optional sign, integer part, optional fractional part). -/
def parseDecimal (s : String) : Option Rat :=
  let signedParse : List Char → Option Rat := fun l =>
    match l.splitOn '.' with
    | [ip] =>
      if ip ≠ [] ∧ ip.all Char.isDigit then
        some ((ip.foldl (fun a c => a * 10 + digitVal c) 0 : Nat) : Rat)
      else none
    | [ip, fp] =>
      if (ip ≠ [] ∨ fp ≠ []) ∧ ip.all Char.isDigit ∧ fp.all Char.isDigit then
        some (((ip.foldl (fun a c => a * 10 + digitVal c) 0 : Nat) : Rat) +
          ((fp.foldl (fun a c => a * 10 + digitVal c) 0 : Nat) : Rat) / ((10 : Rat) ^ fp.length))
      else none
    | _ => none
  match s.toList with
  | '-' :: rest => (signedParse rest).map (fun q => -q)
  | '+' :: rest => signedParse rest
  | l => signedParse l

/-- Rounding to two decimal places, modelling `.round(2)` (line 256). -/
def round2 (q : Rat) : Rat := ((round (q * 100) : Int) : Rat) / 100

/-- Monetary-column normalization (lines 255-256):
`pd.to_numeric(col, errors='coerce')` degrades an unparsable cell to null
instead of raising, then the value is rounded to two decimals. -/
def normalizeEoc : Option String → Option Rat
  | none => none
  | some s => (parseDecimal s).map round2

/-- Test for an ASCII lower-case letter. -/
def isLowerA (c : Char) : Bool := 97 ≤ c.toNat && c.toNat ≤ 122

/-- Test for an ASCII upper-case letter. -/
def isUpperA (c : Char) : Bool := 65 ≤ c.toNat && c.toNat ≤ 90

/-- ASCII upper-casing of one character, modelling Python `str.upper` on the
character range the feed uses. -/
def upperChar (c : Char) : Char :=
  if isLowerA c then Char.ofNat (c.toNat - 32) else c

/-- ASCII lower-casing of one character, modelling Python `str.lower` on the
character range the feed uses. -/
def lowerChar (c : Char) : Char :=
  if isUpperA c then Char.ofNat (c.toNat + 32) else c

/-- ASCII letter test, the cased characters relevant to the feed. -/
def isAsciiAlpha (c : Char) : Bool :=
  isUpperA c || isLowerA c

/-- Whole-string upper-casing, modelling `Series.str.upper()` on a cell. -/
def upperString (s : String) : String := String.mk (s.toList.map upperChar)

/-- Renewal-flag normalization (line 254):
`col.str.upper().map({'RINNOVATO': True}).fillna(False)` — case-insensitive
exact match against the single true-token, everything else (nulls included)
becomes `false`. -/
def normalizeRinnovo : Option String → Bool
  | none => false
  | some s => upperString s == "RINNOVATO"

/-- Character stream of Python `str.title`: a cased character is upper-cased
when the previous character is not cased, lower-cased otherwise. The flag
records whether the previous character was cased. -/
def titleChars : Bool → List Char → List Char
  | _, [] => []
  | prevCased, c :: cs =>
    if isAsciiAlpha c then
      (if prevCased then lowerChar c else upperChar c) :: titleChars true cs
    else
      c :: titleChars false cs

/-- Free-text category normalization (line 258): `Series.str.title()`. -/
def titleCase (s : String) : String := String.mk (titleChars false s.toList)

/-- One raw input row as read from the spreadsheet (`dtype=str`, designated
null markers already mapped to null): the columns of `col_mapping` that
survive to normalization. -/
structure RawRow where
  leaseStart : Option String
  leaseEndDate : Option String
  returnDate : Option String
  returnOdo : Option String
  registration : String
  collectionReasonDesc : Option String
  rinnovo : Option String
  eocTotale : Option String
deriving DecidableEq, Repr

/-- One normalized input row after lines 250-261: the two lease-date columns
are parsed and then dropped, the remaining business fields are typed. -/
structure NormRow where
  registration : String
  returnDate : Option String
  returnOdo : Option Int
  rinnovo : Bool
  causale : Option String
  eocTotale : Option Rat
deriving DecidableEq, Repr

/-- Normalization of one row (lines 250-261). The two lease dates are parsed
(and can abort the batch) even though the columns are dropped afterwards. -/
def normalizeRow (raw : RawRow) : Except String NormRow := do
  let _leaseStart ← normalizeDate raw.leaseStart
  let _leaseEnd ← normalizeDate raw.leaseEndDate
  let returnDate ← normalizeDate raw.returnDate
  let returnOdo ← normalizeOdo raw.returnOdo
  .ok { registration := raw.registration
        returnDate := returnDate
        returnOdo := returnOdo
        rinnovo := normalizeRinnovo raw.rinnovo
        causale := raw.collectionReasonDesc.map titleCase
        eocTotale := normalizeEoc raw.eocTotale }

/-- Column-wise normalization of the whole batch: the first malformed cell of
an unguarded column aborts every row. -/
def normalizeAll (raws : List RawRow) : Except String (List NormRow) :=
  raws.mapM normalizeRow

/-- One CRM `Ordine__c` record as fetched by the query of `lib.build_soql`
(all object fields are selected; only these take part in the engine). The
record identifier, order number, plate and status are modelled as the
non-null strings the engine relies on; the mirrored business fields are
nullable. -/
structure Ordine where
  id : String
  numeroOrdine : String
  targa : String
  stato : String
  rinnovato : Bool
  dataFine : Option String
  returnOdo : Option Int
  causale : Option String
  costiExtra : Option Rat
deriving DecidableEq, Repr

/-- The fetch of `lib.build_soql` plus `lib.fetch_ordini_all`
(lambda_function.py lines 263-269): the distinct registration values are
queried in chunks with
`WHERE Numero_Ordine__c IN ids AND Stato__c = 'Attesa Consegna'` and the
chunk results concatenated. Each record matches at most one chunk of the
partition of the deduplicated id list, so the concatenation equals one
filter of the CRM data set by the full deduplicated id list. -/
def fetchOrdini (db : List Ordine) (registrations : List String) : List Ordine :=
  db.filter (fun o => o.numeroOrdine ∈ registrations.dedup ∧ o.stato = "Attesa Consegna")

/-- Indicator tag of a pandas merge performed with `indicator=True`. -/
inductive MergeTag where
  | leftOnly
  | rightOnly
  | both
deriving DecidableEq, Repr

/-- The `how='left'` merge of lines 289-295: each input row is paired with
every CRM plate equal to its registration and tagged `both`, or kept alone
and tagged `left_only` when no plate matches. -/
def leftMergeRows (input : List NormRow) (ordini : List Ordine) :
    List (Option NormRow × Option String × MergeTag) :=
  input.flatMap (fun r =>
    let ms := ordini.filter (fun o => o.targa = r.registration)
    if ms.isEmpty then [(some r, none, MergeTag.leftOnly)]
    else ms.map (fun o => (some r, some o.targa, MergeTag.both)))

/-- The `how='right'` merge of lines 296-302: each CRM plate is paired with
every input row whose registration equals it and tagged `both`, or kept
alone (input columns null) and tagged `right_only` when no row matches. -/
def rightMergeRows (input : List NormRow) (ordini : List Ordine) :
    List (Option NormRow × Option String × MergeTag) :=
  ordini.flatMap (fun o =>
    let ms := input.filter (fun r => r.registration = o.targa)
    if ms.isEmpty then [(none, some o.targa, MergeTag.rightOnly)]
    else ms.map (fun r => (some r, some o.targa, MergeTag.both)))

/-- Lines 303-304: the two indicator merges are concatenated and only the
rows tagged `left_only` are kept (then the indicator and plate columns are
dropped, leaving input rows). -/
def ordiniNoSalesforce (input : List NormRow) (ordini : List Ordine) : List NormRow :=
  ((leftMergeRows input ordini ++ rightMergeRows input ordini).filter
    (fun row => row.2.2 = MergeTag.leftOnly)).filterMap (fun row => row.1)

/-- The inner merge of line 308: every (input row, CRM record) pair whose
registration equals the record's plate, in input-row order. -/
def matchedPairs (input : List NormRow) (ordini : List Ordine) : List (NormRow × Ordine) :=
  input.flatMap (fun r =>
    (ordini.filter (fun o => o.targa = r.registration)).map (fun o => (r, o)))

/-- One row of the renewal-difference table (lines 311-321): registration,
record identifier, CRM renewal flag, external renewal flag. -/
structure RinnovatoDiff where
  registration : String
  id : String
  rinnovoSalesforce : Bool
  rinnovoArval : Bool
deriving DecidableEq, Repr

/-- Lines 311-321: the matched rows are inner-joined by identifier against
the CRM records whose status is `'Live'`, and the pairs where the external
renewal flag differs from the CRM one are kept. -/
def rinnovatiDifference (matched : List (NormRow × Ordine)) (ordini : List Ordine) :
    List RinnovatoDiff :=
  (matched.flatMap (fun p =>
    ((ordini.filter (fun o => o.stato = "Live")).filter (fun o => o.id = p.2.id)).map
      (fun o => RinnovatoDiff.mk p.1.registration p.2.id o.rinnovato p.1.rinnovo))).filter
    (fun d => d.rinnovoArval ≠ d.rinnovoSalesforce)

/-- Line 285: input rows whose non-null normalized termination reason is not
among the allowed picklist values. -/
def causaleTermineNoSalesforce (input : List NormRow) (allowed : List String) : List NormRow :=
  input.filter (fun r =>
    match r.causale with
    | none => false
    | some v => v ∉ allowed)

/-- One row of the frame entering the retry loop, after dropping `RINNOVO`,
renaming via `col_mapping`, dropping the plate column and merging in the
CRM identifier and status (lines 307-327): the four business fields under
their CRM names plus `Id` and `Stato__c`. -/
structure PlanRow where
  dataFineContratto : Option String
  returnOdoField : Option Int
  causaleField : Option String
  costiExtraContratto : Option Rat
  id : String
  stato : String
deriving DecidableEq, Repr

/-- The projection of a matched pair to the planner's row: business fields
from the input row, identifier and status from the matched CRM record. -/
def toPlanRow (r : NormRow) (o : Ordine) : PlanRow :=
  { dataFineContratto := r.returnDate
    returnOdoField := r.returnOdo
    causaleField := r.causale
    costiExtraContratto := r.eocTotale
    id := o.id
    stato := o.stato }

/-- One update intent `rec` (lines 341-352): a dict keyed by CRM field name.
`Id` is always inserted by the diff loop; every other field is present
exactly when its `Option` is `some`. -/
structure Intent where
  id : String
  stato : Option String
  dataFineContratto : Option String
  returnOdoField : Option Int
  causaleField : Option String
  costiExtraContratto : Option Rat
deriving DecidableEq, Repr

/-- The key set of an intent dict, as CRM field names. -/
def intentKeys (rec : Intent) : List String :=
  ["Id"] ++ (if rec.stato.isSome then ["Stato__c"] else []) ++
    (if rec.dataFineContratto.isSome then ["Data_Fine_Contratto__c"] else []) ++
    (if rec.returnOdoField.isSome then ["Return_Odo__c"] else []) ++
    (if rec.causaleField.isSome then ["causale__c"] else []) ++
    (if rec.costiExtraContratto.isSome then ["Costi_Extra_Contratto__c"] else [])

/-- Equality of Python sets of keys: mutual containment of the listings. -/
def keySetEq (xs ys : List String) : Bool :=
  xs.all (fun x => x ∈ ys) && ys.all (fun y => y ∈ xs)

/-- The diff loop of lines 341-352 for one non-closed row: `Stato__c` is
forced to `'Chiuso'` first; then for every key of the row, `Id` is always
copied, and any other field is copied exactly when its value is non-null and
differs from the CRM record's current value (a null CRM value differs from
every non-null external value, as in pandas). The row's own `Stato__c` entry
(merged in from the same CRM record) is also diffed, overwriting the forced
transition only if it is non-null and differs from the CRM status. -/
def mkIntent (row : PlanRow) (o : Ordine) : Intent :=
  { id := row.id
    stato := if o.stato ≠ row.stato then some row.stato else some "Chiuso"
    dataFineContratto :=
      if row.dataFineContratto.isSome ∧ o.dataFine ≠ row.dataFineContratto then
        row.dataFineContratto
      else none
    returnOdoField :=
      if row.returnOdoField.isSome ∧ o.returnOdo ≠ row.returnOdoField then
        row.returnOdoField
      else none
    causaleField :=
      if row.causaleField.isSome ∧ o.causale ≠ row.causaleField then
        row.causaleField
      else none
    costiExtraContratto :=
      if row.costiExtraContratto.isSome ∧ o.costiExtra ≠ row.costiExtraContratto then
        row.costiExtraContratto
      else none }

/-- The four working sets produced by one planning pass (lines 334-358):
intents routed for write, intents classified Skipped, rows already closed,
rows for which a close transition is planned. -/
structure PlanResult where
  toModify : List Intent
  toSkip : List Intent
  stillClosed : List PlanRow
  toClose : List PlanRow
deriving DecidableEq, Repr

/-- One planning pass (lines 339-358). A row whose merged CRM status is
`'Chiuso'` goes to `still_closed` untouched; otherwise the intent is built
and routed to `to_modify` unless its key set is exactly the singleton
`set(('Id',))`, in which case it is classified Skipped with a synthetic
success outcome. -/
def planPass : List (PlanRow × Ordine) → PlanResult
  | [] => ⟨[], [], [], []⟩
  | (row, o) :: rest =>
    let acc := planPass rest
    if row.stato = "Chiuso" then
      { acc with stillClosed := row :: acc.stillClosed }
    else
      let intent := mkIntent row o
      if keySetEq (intentKeys intent) ["Id"] then
        { acc with toClose := row :: acc.toClose, toSkip := intent :: acc.toSkip }
      else
        { acc with toClose := row :: acc.toClose, toModify := intent :: acc.toModify }

/-- Acknowledgment of one `updateOne` call against the CRM: either the
successful raw response (HTTP 204) or a failure description covering both a
non-success response and a raised exception. -/
inductive UpdateAck where
  | success
  | failure (desc : String)
deriving DecidableEq, Repr

/-- Result of one update attempt, as built by `update_record`
(lambda_function.py lines 46-67). -/
structure Outcome where
  statusCode : Nat
  id : String
  statusDescription : String
deriving DecidableEq, Repr

/-- `update_record` (lines 46-67): the identifier is popped from the intent
and the remaining fields are sent; a 204 acknowledgment yields
`(200, 'Success')`, anything else (response or exception) yields `(400, its
description)`. The CRM is abstracted as an acknowledgment function of the
intent. -/
def updateRecord (ack : Intent → UpdateAck) (recd : Intent) : Outcome :=
  match ack recd with
  | UpdateAck.success => ⟨200, recd.id, "Success"⟩
  | UpdateAck.failure d => ⟨400, recd.id, d⟩

/-- The retry-loop stop test (line 369): no executed outcome has a status
description other than `'Success'`. -/
def allSuccess (outs : List Outcome) : Bool :=
  (outs.filter (fun oc => oc.statusDescription ≠ "Success")).isEmpty

/-- Outcomes of one executor attempt: `executor.map(update_record, to_modify)`
(lines 367-368), with the CRM acknowledgment oracle indexed by the attempt
number (the pool only bounds throughput; each intent is independent). -/
def execAttempt (oracle : Nat → Intent → UpdateAck) (attempt : Nat)
    (intents : List Intent) : List Outcome :=
  intents.map (updateRecord (oracle attempt))

/-- The `for _ in range(3)` retry loop of lines 332-372, which replans the
same in-memory snapshot each iteration (`planPass` is a pure function of the
matched pairs, so each replanning yields the same working sets). Returns the
executed outcomes that survive to reporting together with the number of
executor attempts actually made: zero when nothing is routed for write,
otherwise the first attempt (at most the third) whose outcomes are all
`'Success'`, or the third attempt's outcomes when every attempt fails. -/
def runUpdateLoop (oracle : Nat → Intent → UpdateAck) (intents : List Intent) :
    List Outcome × Nat :=
  if intents.isEmpty then ([], 0)
  else
    let o1 := execAttempt oracle 1 intents
    if allSuccess o1 then (o1, 1)
    else
      let o2 := execAttempt oracle 2 intents
      if allSuccess o2 then (o2, 2)
      else (execAttempt oracle 3 intents, 3)

/-- Modelled from the spec: `lib.get_unique_available_values_picklist` is
called at lambda_function.py lines 279-284 but its definition is not under
src/. Per the spec (§4.3) it retrieves the allowed termination-reason values
for every record-type variant of the object once per invocation, fails with
`PicklistInconsistencyError` when any record-type subset disagrees with the
others, and otherwise returns the shared value set. -/
def getUniqueAvailableValuesPicklist (valuesByRecordType : List (List String)) :
    Except String (List String) :=
  match valuesByRecordType with
  | [] => .ok []
  | v :: rest =>
    if rest.all (fun w => keySetEq w v) then .ok v
    else .error "PicklistInconsistencyError"

/-- The report assembled at the end of a run (lines 374-409): the primary
outcome buckets plus the informational tables. -/
structure Report where
  success : List Outcome
  skipped : List Intent
  failed : List Outcome
  stillClosed : List PlanRow
  toClose : List PlanRow
  rinnovatiDiff : List RinnovatoDiff
  noSalesforce : List NormRow
  invalidPicklist : List NormRow
  attemptsUsed : Nat
deriving DecidableEq, Repr

/-- The reconciliation engine of `update_records` end to end: normalization,
CRM fetch, picklist validation, unmatched report, matching, renewal check,
planning-and-execution with bounded retry, and classification of the
executed outcomes by status code (lines 374-376). Run-level failures
(normalization, picklist inconsistency) abort with the triggering
description; per-record update failures never do. -/
def updateRecordsRun (oracle : Nat → Intent → UpdateAck) (raws : List RawRow)
    (db : List Ordine) (picklistByRecordType : List (List String)) :
    Except String Report := do
  let input ← normalizeAll raws
  let ordini := fetchOrdini db (input.map (fun r => r.registration))
  let allowed ← getUniqueAvailableValuesPicklist picklistByRecordType
  let invalid := causaleTermineNoSalesforce input allowed
  let noSf := ordiniNoSalesforce input ordini
  let matched := matchedPairs input ordini
  let rinnDiff := rinnovatiDifference matched ordini
  let plan := planPass (matched.map (fun p => (toPlanRow p.1 p.2, p.2)))
  let outs := (runUpdateLoop oracle plan.toModify).1
  .ok { success := outs.filter (fun oc => oc.statusCode = 200)
        skipped := plan.toSkip
        failed := outs.filter (fun oc => oc.statusCode ≠ 200)
        stillClosed := plan.stillClosed
        toClose := plan.toClose
        rinnovatiDiff := rinnDiff
        noSalesforce := noSf
        invalidPicklist := invalid
        attemptsUsed := (runUpdateLoop oracle plan.toModify).2 }

theorem mkIntent_stato_isSome (row : PlanRow) (o : Ordine) :
    (mkIntent row o).stato.isSome = true := by
  simp only [mkIntent]
  split <;> rfl

theorem statoKey_mem_intentKeys (row : PlanRow) (o : Ordine) :
    "Stato__c" ∈ intentKeys (mkIntent row o) := by
  simp [intentKeys, mkIntent_stato_isSome row o]

theorem keySetEq_intentKeys_singleton (row : PlanRow) (o : Ordine) :
    keySetEq (intentKeys (mkIntent row o)) ["Id"] = false := by
  rw [Bool.eq_false_iff]
  intro hkeq
  simp only [keySetEq, Bool.and_eq_true, List.all_eq_true] at hkeq
  have := hkeq.1 _ (statoKey_mem_intentKeys row o)
  simp at this

theorem planPass_toSkip_eq_nil (pairs : List (PlanRow × Ordine)) :
    (planPass pairs).toSkip = [] := by
  induction pairs with
  | nil => rfl
  | cons p rest ih =>
    obtain ⟨row, o⟩ := p
    simp only [planPass]
    split
    · simpa using ih
    · rw [keySetEq_intentKeys_singleton]
      simpa using ih

theorem planPass_toModify_eq (pairs : List (PlanRow × Ordine)) :
    (planPass pairs).toModify =
      (pairs.filter (fun p => p.1.stato ≠ "Chiuso")).map (fun p => mkIntent p.1 p.2) := by
  induction pairs with
  | nil => rfl
  | cons p rest ih =>
    obtain ⟨row, o⟩ := p
    simp only [planPass]
    by_cases hc : row.stato = "Chiuso"
    · simp [hc, ih]
    · rw [if_neg hc, keySetEq_intentKeys_singleton]
      simp [hc, ih]

theorem planPass_stillClosed_eq (pairs : List (PlanRow × Ordine)) :
    (planPass pairs).stillClosed =
      (pairs.map Prod.fst).filter (fun r => r.stato = "Chiuso") := by
  induction pairs with
  | nil => rfl
  | cons p rest ih =>
    obtain ⟨row, o⟩ := p
    simp only [planPass]
    by_cases hc : row.stato = "Chiuso"
    · simp [hc, ih]
    · rw [if_neg hc, keySetEq_intentKeys_singleton]
      simp [hc, ih]

/-- C1: the claim predicts that a matched record whose intent key set is
exactly the pair of the identifier and the forced-status key is classified
Skipped and withheld from the Executor. On a concrete matched record whose
business fields all coincide with the CRM values, the intent key set is
exactly that pair, yet the planner routes the record to `to_modify` (it is
sent to the Executor) and the Skipped set stays empty: the skip test
compares the key set against the singleton of the identifier after the
forced-status key was already inserted, so it can never pass. -/
theorem skip_exactness_refuted :
    keySetEq
      (intentKeys (mkIntent
        ⟨some "2023-01-01", some 100, none, none, "R1", "Attesa Consegna"⟩
        ⟨"R1", "AB123CD", "AB123CD", "Attesa Consegna", false,
          some "2023-01-01", some 100, none, none⟩))
      ["Id", "Stato__c"] = true ∧
    (planPass [(⟨some "2023-01-01", some 100, none, none, "R1", "Attesa Consegna"⟩,
      ⟨"R1", "AB123CD", "AB123CD", "Attesa Consegna", false,
        some "2023-01-01", some 100, none, none⟩)]).toSkip = [] ∧
    (planPass [(⟨some "2023-01-01", some 100, none, none, "R1", "Attesa Consegna"⟩,
      ⟨"R1", "AB123CD", "AB123CD", "Attesa Consegna", false,
        some "2023-01-01", some 100, none, none⟩)]).toModify =
      [mkIntent
        ⟨some "2023-01-01", some 100, none, none, "R1", "Attesa Consegna"⟩
        ⟨"R1", "AB123CD", "AB123CD", "Attesa Consegna", false,
          some "2023-01-01", some 100, none, none⟩] := by
  refine ⟨by decide, by decide, by decide⟩

/-- C1 (amended): a record is classified Skipped exactly when its intent key
set equals the singleton of the identifier; since the forced-status key is
inserted unconditionally before the key-set test, the test never passes, so
the Skipped set is empty on every pass and every matched record that is not
already closed is routed to the Executor. -/
theorem skip_never_triggers (pairs : List (PlanRow × Ordine)) :
    (planPass pairs).toSkip = [] ∧
    (planPass pairs).toModify =
      (pairs.filter (fun p => p.1.stato ≠ "Chiuso")).map (fun p => mkIntent p.1 p.2) :=
  ⟨planPass_toSkip_eq_nil pairs, planPass_toModify_eq pairs⟩

theorem length_filter_add_length_filter_not {α : Type} (p : α → Prop) [DecidablePred p]
    (l : List α) :
    (l.filter (fun a => p a)).length + (l.filter (fun a => ¬ p a)).length = l.length := by
  induction l with
  | nil => rfl
  | cons a l ih =>
    simp only [List.filter_cons]
    by_cases h : p a
    · rw [if_pos (by simpa using h), if_neg (by simpa using h)]
      simp only [List.length_cons]
      omega
    · rw [if_neg (by simpa using h), if_pos (by simpa using h)]
      simp only [List.length_cons]
      omega

theorem execAttempt_length (oracle : Nat → Intent → UpdateAck) (attempt : Nat)
    (intents : List Intent) : (execAttempt oracle attempt intents).length = intents.length := by
  simp [execAttempt]

theorem runUpdateLoop_of_not_isEmpty (oracle : Nat → Intent → UpdateAck)
    (intents : List Intent) (h : ¬ intents.isEmpty = true) :
    runUpdateLoop oracle intents =
      if allSuccess (execAttempt oracle 1 intents) then (execAttempt oracle 1 intents, 1)
      else if allSuccess (execAttempt oracle 2 intents) then (execAttempt oracle 2 intents, 2)
      else (execAttempt oracle 3 intents, 3) := by
  unfold runUpdateLoop
  rw [if_neg h]

theorem runUpdateLoop_length (oracle : Nat → Intent → UpdateAck) (intents : List Intent) :
    ((runUpdateLoop oracle intents).1).length = intents.length := by
  by_cases he : intents.isEmpty = true
  · unfold runUpdateLoop
    rw [if_pos he]
    simp [List.isEmpty_iff.mp he]
  · rw [runUpdateLoop_of_not_isEmpty oracle intents he]
    by_cases h1 : allSuccess (execAttempt oracle 1 intents) = true
    · rw [if_pos h1]
      exact execAttempt_length oracle 1 intents
    · rw [if_neg h1]
      by_cases h2 : allSuccess (execAttempt oracle 2 intents) = true
      · rw [if_pos h2]
        exact execAttempt_length oracle 2 intents
      · rw [if_neg h2]
        exact execAttempt_length oracle 3 intents

theorem length_filter_map_fst (pairs : List (PlanRow × Ordine)) :
    ((pairs.map Prod.fst).filter (fun r => r.stato = "Chiuso")).length =
      (pairs.filter (fun p => p.1.stato = "Chiuso")).length := by
  induction pairs with
  | nil => rfl
  | cons q rest ih =>
    simp only [List.map_cons, List.filter_cons]
    by_cases h : q.1.stato = "Chiuso"
    · rw [if_pos (by simpa using h), if_pos (by simpa using h)]
      simp only [List.length_cons, ih]
    · rw [if_neg (by simpa using h), if_neg (by simpa using h)]
      exact ih

/-- C2: at the end of a run the four primary buckets partition the matched
records that entered the Diff Planner: the already-closed rows are exactly
the matched rows whose merged CRM status is `Chiuso` (and no write is
planned for them, since every intent comes from a non-closed row), every
write-bound intent yields exactly one executed outcome, the Success and
Failed filters of the executed outcomes are disjoint, and the bucket sizes
add up to the number of matched records. -/
theorem matched_buckets_partition (oracle : Nat → Intent → UpdateAck)
    (pairs : List (PlanRow × Ordine)) :
    (planPass pairs).stillClosed =
      (pairs.map Prod.fst).filter (fun r => r.stato = "Chiuso") ∧
    (planPass pairs).toSkip.length + (planPass pairs).toModify.length =
      (pairs.filter (fun p => p.1.stato ≠ "Chiuso")).length ∧
    ((runUpdateLoop oracle (planPass pairs).toModify).1).length =
      (planPass pairs).toModify.length ∧
    pairs.length =
      (planPass pairs).stillClosed.length + (planPass pairs).toSkip.length +
        ((((runUpdateLoop oracle (planPass pairs).toModify).1).filter
            (fun oc => oc.statusCode = 200)).length +
          (((runUpdateLoop oracle (planPass pairs).toModify).1).filter
            (fun oc => oc.statusCode ≠ 200)).length) ∧
    ∀ oc, oc ∈ ((runUpdateLoop oracle (planPass pairs).toModify).1).filter
        (fun oc => oc.statusCode = 200) →
      oc ∉ ((runUpdateLoop oracle (planPass pairs).toModify).1).filter
        (fun oc => oc.statusCode ≠ 200) := by
  have hsc := planPass_stillClosed_eq pairs
  have hsk := planPass_toSkip_eq_nil pairs
  have htm := planPass_toModify_eq pairs
  have hrun := runUpdateLoop_length oracle (planPass pairs).toModify
  have houts := length_filter_add_length_filter_not
    (fun oc : Outcome => oc.statusCode = 200)
    ((runUpdateLoop oracle (planPass pairs).toModify).1)
  have hpairs := length_filter_add_length_filter_not
    (fun p : PlanRow × Ordine => p.1.stato = "Chiuso") pairs
  refine ⟨hsc, ?_, hrun, ?_, ?_⟩
  · rw [hsk, htm]
    simp
  · have html : (planPass pairs).toModify.length =
        (pairs.filter (fun p => ¬ p.1.stato = "Chiuso")).length := by
      rw [htm]
      simp
    have hscl : (planPass pairs).stillClosed.length =
        (pairs.filter (fun p => p.1.stato = "Chiuso")).length := by
      rw [hsc]
      exact length_filter_map_fst pairs
    simp only [hsk, List.length_nil, ne_eq] at *
    omega
  · intro oc h1 h2
    rw [List.mem_filter] at h1 h2
    have hy := h1.2
    have hn := h2.2
    simp_all

theorem rightMergeRows_no_leftOnly (input : List NormRow) (ordini : List Ordine) :
    (rightMergeRows input ordini).filter (fun row => row.2.2 = MergeTag.leftOnly) = [] := by
  induction ordini with
  | nil => rfl
  | cons o rest ih =>
    simp only [rightMergeRows, List.flatMap_cons, List.filter_append] at ih ⊢
    rw [ih]
    by_cases h : (input.filter (fun r => r.registration = o.targa)).isEmpty
    · simp [h]
    · rw [if_neg h]
      simp [List.filter_map, Function.comp]

theorem leftMergeRows_leftOnly (input : List NormRow) (ordini : List Ordine) :
    ((leftMergeRows input ordini).filter
        (fun row => row.2.2 = MergeTag.leftOnly)).filterMap (fun row => row.1) =
      input.filter (fun r => (ordini.filter (fun o => o.targa = r.registration)).isEmpty) := by
  induction input with
  | nil => rfl
  | cons r rest ih =>
    simp only [leftMergeRows, List.flatMap_cons, List.filter_append, List.filterMap_append,
      List.filter_cons] at ih ⊢
    rw [ih]
    by_cases h : (ordini.filter (fun o => o.targa = r.registration)).isEmpty
    · simp [h]
    · rw [if_neg h, if_neg (by simpa using h)]
      simp [List.filter_map, Function.comp]

/-- C3: the claim predicts that the unmatched report carries both directions
of the symmetric difference. On a concrete run with an empty external set
and one CRM record, the CRM record business key is absent from the external
set, yet the report is empty: the concatenated indicator merges are filtered
for the tag `left_only`, which no row of the right merge carries, so the
CRM-only direction is dropped. -/
theorem unmatched_direction_refuted :
    ordiniNoSalesforce []
      [⟨"R1", "AB123CD", "AB123CD", "Attesa Consegna", false, none, none, none, none⟩] = [] ∧
    ¬ ((⟨"R1", "AB123CD", "AB123CD", "Attesa Consegna", false, none, none, none,
        none⟩ : Ordine).targa ∈ ([] : List NormRow).map (fun r => r.registration)) := by
  exact ⟨rfl, by decide⟩

/-- C3 (amended): the unmatched report contains exactly the external rows
whose business key matches no CRM plate, each exactly once per occurrence in
the input; CRM keys absent from the external set are not reported, because
the rows of the right indicator merge are tagged `both` or `right_only` and
the report keeps only rows tagged `left_only`. -/
theorem unmatched_left_only (input : List NormRow) (ordini : List Ordine) :
    ordiniNoSalesforce input ordini =
      input.filter (fun r => (ordini.filter (fun o => o.targa = r.registration)).isEmpty) := by
  unfold ordiniNoSalesforce
  rw [List.filter_append, List.filterMap_append, rightMergeRows_no_leftOnly,
    List.filterMap_nil, List.append_nil]
  exact leftMergeRows_leftOnly input ordini

theorem mem_intentKeys_iff (recd : Intent) :
    ("Id" ∈ intentKeys recd) ∧
    (("Stato__c" ∈ intentKeys recd) ↔ recd.stato.isSome = true) ∧
    (("Data_Fine_Contratto__c" ∈ intentKeys recd) ↔ recd.dataFineContratto.isSome = true) ∧
    (("Return_Odo__c" ∈ intentKeys recd) ↔ recd.returnOdoField.isSome = true) ∧
    (("causale__c" ∈ intentKeys recd) ↔ recd.causaleField.isSome = true) ∧
    (("Costi_Extra_Contratto__c" ∈ intentKeys recd) ↔
      recd.costiExtraContratto.isSome = true) := by
  unfold intentKeys
  by_cases h1 : recd.stato.isSome = true <;>
    by_cases h2 : recd.dataFineContratto.isSome = true <;>
    by_cases h3 : recd.returnOdoField.isSome = true <;>
    by_cases h4 : recd.causaleField.isSome = true <;>
    by_cases h5 : recd.costiExtraContratto.isSome = true <;>
    simp [h1, h2, h3, h4, h5]

/-- C4: for a matched record whose CRM status is not `Chiuso`, the planned
intent always carries the identifier and the forced transition of `Stato__c`
to `Chiuso`, and carries any other normalized business field exactly when
the external value is non-null and differs from the current CRM value, in
which case the written value is the external one; a null or unchanged
external value is never included. Such a record is routed to the Executor
queue by the planning pass. -/
theorem diff_minimality (r : NormRow) (o : Ordine) (h : o.stato ≠ "Chiuso") :
    let recd := mkIntent (toPlanRow r o) o
    recd.id = o.id ∧
    ("Id" ∈ intentKeys recd) ∧
    recd.stato = some "Chiuso" ∧
    (("Data_Fine_Contratto__c" ∈ intentKeys recd) ↔
      (r.returnDate.isSome = true ∧ o.dataFine ≠ r.returnDate)) ∧
    (("Return_Odo__c" ∈ intentKeys recd) ↔
      (r.returnOdo.isSome = true ∧ o.returnOdo ≠ r.returnOdo)) ∧
    (("causale__c" ∈ intentKeys recd) ↔
      (r.causale.isSome = true ∧ o.causale ≠ r.causale)) ∧
    (("Costi_Extra_Contratto__c" ∈ intentKeys recd) ↔
      (r.eocTotale.isSome = true ∧ o.costiExtra ≠ r.eocTotale)) ∧
    (recd.dataFineContratto ≠ none → recd.dataFineContratto = r.returnDate) ∧
    (recd.returnOdoField ≠ none → recd.returnOdoField = r.returnOdo) ∧
    (recd.causaleField ≠ none → recd.causaleField = r.causale) ∧
    (recd.costiExtraContratto ≠ none → recd.costiExtraContratto = r.eocTotale) ∧
    (planPass [(toPlanRow r o, o)]).toModify = [recd] := by
  intro recd
  have hkeys := mem_intentKeys_iff recd
  have hstato : recd.stato = some "Chiuso" := by
    show (mkIntent (toPlanRow r o) o).stato = some "Chiuso"
    simp [mkIntent, toPlanRow]
  have hd : recd.dataFineContratto =
      (if r.returnDate.isSome = true ∧ o.dataFine ≠ r.returnDate then r.returnDate
        else none) := rfl
  have ho : recd.returnOdoField =
      (if r.returnOdo.isSome = true ∧ o.returnOdo ≠ r.returnOdo then r.returnOdo
        else none) := rfl
  have hca : recd.causaleField =
      (if r.causale.isSome = true ∧ o.causale ≠ r.causale then r.causale
        else none) := rfl
  have hco : recd.costiExtraContratto =
      (if r.eocTotale.isSome = true ∧ o.costiExtra ≠ r.eocTotale then r.eocTotale
        else none) := rfl
  refine ⟨rfl, hkeys.1, hstato, ?_, ?_, ?_, ?_, ?_, ?_, ?_, ?_, ?_⟩
  · rw [hkeys.2.2.1, hd]
    by_cases hc : r.returnDate.isSome = true ∧ o.dataFine ≠ r.returnDate <;> simp [hc]
  · rw [hkeys.2.2.2.1, ho]
    by_cases hc : r.returnOdo.isSome = true ∧ o.returnOdo ≠ r.returnOdo <;> simp [hc]
  · rw [hkeys.2.2.2.2.1, hca]
    by_cases hc : r.causale.isSome = true ∧ o.causale ≠ r.causale <;> simp [hc]
  · rw [hkeys.2.2.2.2.2, hco]
    by_cases hc : r.eocTotale.isSome = true ∧ o.costiExtra ≠ r.eocTotale <;> simp [hc]
  · rw [hd]
    by_cases hc : r.returnDate.isSome = true ∧ o.dataFine ≠ r.returnDate <;> simp [hc]
  · rw [ho]
    by_cases hc : r.returnOdo.isSome = true ∧ o.returnOdo ≠ r.returnOdo <;> simp [hc]
  · rw [hca]
    by_cases hc : r.causale.isSome = true ∧ o.causale ≠ r.causale <;> simp [hc]
  · rw [hco]
    by_cases hc : r.eocTotale.isSome = true ∧ o.costiExtra ≠ r.eocTotale <;> simp [hc]
  · have hne : (toPlanRow r o).stato ≠ "Chiuso" := h
    simp only [planPass, keySetEq_intentKeys_singleton, if_neg hne]
    simp

/-- Witness for C4 at the worked example of the spec: external odometer
15000 and reason `Incidente` against an open CRM record with null mirrors
yield an intent that forces the status and includes the odometer field. -/
theorem diff_minimality_witness :
    ((⟨"R1", "AB123CD", "AB123CD", "Attesa Consegna", false, none, none, none, none⟩ :
        Ordine).stato ≠ "Chiuso") ∧
    (mkIntent
        (toPlanRow ⟨"AB123CD", none, some 15000, true, some "Incidente", none⟩
          ⟨"R1", "AB123CD", "AB123CD", "Attesa Consegna", false, none, none, none, none⟩)
        ⟨"R1", "AB123CD", "AB123CD", "Attesa Consegna", false, none, none, none,
          none⟩).stato = some "Chiuso" ∧
    ("Return_Odo__c" ∈ intentKeys (mkIntent
        (toPlanRow ⟨"AB123CD", none, some 15000, true, some "Incidente", none⟩
          ⟨"R1", "AB123CD", "AB123CD", "Attesa Consegna", false, none, none, none, none⟩)
        ⟨"R1", "AB123CD", "AB123CD", "Attesa Consegna", false, none, none, none, none⟩)) := by
  have hmain := diff_minimality
    ⟨"AB123CD", none, some 15000, true, some "Incidente", none⟩
    ⟨"R1", "AB123CD", "AB123CD", "Attesa Consegna", false, none, none, none, none⟩
    (by decide)
  simp only [] at hmain
  exact ⟨by decide, hmain.2.2.1, hmain.2.2.2.2.1.mpr (by decide)⟩

theorem allSuccess_execAttempt_of_success (oracle : Nat → Intent → UpdateAck) (m : Nat)
    (intents : List Intent) (h : ∀ i ∈ intents, oracle m i = UpdateAck.success) :
    allSuccess (execAttempt oracle m intents) = true := by
  simp only [allSuccess, execAttempt, List.isEmpty_iff]
  rw [List.filter_eq_nil_iff]
  intro oc hoc
  rw [List.mem_map] at hoc
  obtain ⟨i, hi, hoci⟩ := hoc
  rw [← hoci]
  simp [updateRecord, h i hi]

theorem execAttempt_codes_of_success (oracle : Nat → Intent → UpdateAck) (m : Nat)
    (intents : List Intent) (h : ∀ i ∈ intents, oracle m i = UpdateAck.success) :
    ∀ oc ∈ execAttempt oracle m intents, oc.statusCode = 200 := by
  intro oc hoc
  rw [execAttempt, List.mem_map] at hoc
  obtain ⟨i, hi, hoci⟩ := hoc
  rw [← hoci]
  simp [updateRecord, h i hi]

theorem execAttempt_codes_of_failure (oracle : Nat → Intent → UpdateAck) (m : Nat)
    (intents : List Intent) (h : ∀ i ∈ intents, oracle m i ≠ UpdateAck.success) :
    ∀ oc ∈ execAttempt oracle m intents, oc.statusCode ≠ 200 := by
  intro oc hoc
  rw [execAttempt, List.mem_map] at hoc
  obtain ⟨i, hi, hoci⟩ := hoc
  rw [← hoci]
  cases hack : oracle m i with
  | success => exact absurd hack (h i hi)
  | failure d => simp [updateRecord, hack]

theorem allSuccess_eq_false_of_failure (oracle : Nat → Intent → UpdateAck) (m : Nat)
    (intents : List Intent) (hne : intents ≠ [])
    (h : ∀ i ∈ intents, oracle m i ≠ UpdateAck.success)
    (hd : ∀ i ∈ intents, ∀ d, oracle m i = UpdateAck.failure d → d ≠ "Success") :
    allSuccess (execAttempt oracle m intents) = false := by
  obtain ⟨i0, rest, hi0⟩ : ∃ i0 rest, intents = i0 :: rest := by
    cases intents with
    | nil => exact absurd rfl hne
    | cons a l => exact ⟨a, l, rfl⟩
  have hmem : i0 ∈ intents := by rw [hi0]; exact List.mem_cons_self i0 rest
  rw [Bool.eq_false_iff]
  intro hall
  simp only [allSuccess, List.isEmpty_iff] at hall
  rw [List.filter_eq_nil_iff] at hall
  have hoc := hall (updateRecord (oracle m) i0)
    (by rw [execAttempt]; exact List.mem_map_of_mem _ hmem)
  cases hack : oracle m i0 with
  | success => exact h i0 hmem hack
  | failure d =>
    apply hd i0 hmem d hack
    simp only [updateRecord, hack] at hoc
    simpa using hoc

/-- C5: the planning-and-execution cycle is bounded by 3 attempts against
the same initial snapshot; it stops at the first attempt whose executed
outcomes all report Success, in which case every record is classified
Success; under a CRM that never succeeds it stops after exactly 3 attempts
with every record classified Failed; and whenever normalization and the
picklist check pass, the run reaches reporting with at most 3 attempts no
matter how the updates fare. -/
theorem retry_policy :
    (∀ (oracle : Nat → Intent → UpdateAck) (intents : List Intent),
      (runUpdateLoop oracle intents).2 ≤ 3) ∧
    (∀ (oracle : Nat → Intent → UpdateAck) (intents : List Intent) (N : Nat),
      intents ≠ [] → 1 ≤ N → N ≤ 3 →
      (∀ m, 1 ≤ m → m < N → allSuccess (execAttempt oracle m intents) = false) →
      (∀ i ∈ intents, oracle N i = UpdateAck.success) →
      runUpdateLoop oracle intents = (execAttempt oracle N intents, N) ∧
        ∀ oc ∈ (runUpdateLoop oracle intents).1, oc.statusCode = 200) ∧
    (∀ (oracle : Nat → Intent → UpdateAck) (intents : List Intent),
      intents ≠ [] →
      (∀ i ∈ intents, ∀ m, oracle m i ≠ UpdateAck.success) →
      (∀ i ∈ intents, ∀ m d, oracle m i = UpdateAck.failure d → d ≠ "Success") →
      (runUpdateLoop oracle intents).2 = 3 ∧
        ∀ oc ∈ (runUpdateLoop oracle intents).1, oc.statusCode ≠ 200) ∧
    (∀ (oracle : Nat → Intent → UpdateAck) (raws : List RawRow) (db : List Ordine)
        (picks : List (List String)) (input : List NormRow) (allowed : List String),
      normalizeAll raws = Except.ok input →
      getUniqueAvailableValuesPicklist picks = Except.ok allowed →
      ∃ rep, updateRecordsRun oracle raws db picks = Except.ok rep ∧
        rep.attemptsUsed ≤ 3) := by
  have hbound : ∀ (oracle : Nat → Intent → UpdateAck) (intents : List Intent),
      (runUpdateLoop oracle intents).2 ≤ 3 := by
    intro oracle intents
    by_cases he : intents.isEmpty = true
    · unfold runUpdateLoop
      rw [if_pos he]
      omega
    · rw [runUpdateLoop_of_not_isEmpty oracle intents he]
      by_cases h1 : allSuccess (execAttempt oracle 1 intents) = true
      · rw [if_pos h1]
        omega
      · rw [if_neg h1]
        by_cases h2 : allSuccess (execAttempt oracle 2 intents) = true
        · rw [if_pos h2]
          omega
        · rw [if_neg h2]
  refine ⟨hbound, ?_, ?_, ?_⟩
  · intro oracle intents N hne h1N hN3 hfail hsucc
    have he : ¬ intents.isEmpty = true := by
      rw [List.isEmpty_iff]
      exact hne
    have heq : runUpdateLoop oracle intents = (execAttempt oracle N intents, N) := by
      rw [runUpdateLoop_of_not_isEmpty oracle intents he]
      have hsN := allSuccess_execAttempt_of_success oracle N intents hsucc
      interval_cases N
      · rw [if_pos hsN]
      · rw [if_neg (by rw [hfail 1 (by omega) (by omega)]; simp), if_pos hsN]
      · rw [if_neg (by rw [hfail 1 (by omega) (by omega)]; simp),
          if_neg (by rw [hfail 2 (by omega) (by omega)]; simp)]
    refine ⟨heq, ?_⟩
    rw [heq]
    exact execAttempt_codes_of_success oracle N intents hsucc
  · intro oracle intents hne hnosucc hnodesc
    have he : ¬ intents.isEmpty = true := by
      rw [List.isEmpty_iff]
      exact hne
    have heq : runUpdateLoop oracle intents = (execAttempt oracle 3 intents, 3) := by
      rw [runUpdateLoop_of_not_isEmpty oracle intents he]
      rw [if_neg (by
        rw [allSuccess_eq_false_of_failure oracle 1 intents hne
          (fun i hi => hnosucc i hi 1) (fun i hi => hnodesc i hi 1)]
        simp)]
      rw [if_neg (by
        rw [allSuccess_eq_false_of_failure oracle 2 intents hne
          (fun i hi => hnosucc i hi 2) (fun i hi => hnodesc i hi 2)]
        simp)]
    rw [heq]
    exact ⟨rfl, execAttempt_codes_of_failure oracle 3 intents
      (fun i hi => hnosucc i hi 3)⟩
  · intro oracle raws db picks input allowed hnorm hpick
    unfold updateRecordsRun
    rw [hnorm]
    simp only [bind, Except.bind]
    rw [hpick]
    exact ⟨_, rfl, hbound oracle _⟩

/-- Witness for C5: a CRM mock that fails on the first attempt and succeeds
from the second stops the loop at attempt 2 with a Success outcome; an
always-failing mock stops after exactly 3 attempts; an empty run reaches
reporting. -/
theorem retry_policy_witness :
    runUpdateLoop (fun m _ => if 2 ≤ m then UpdateAck.success else UpdateAck.failure "boom")
        [⟨"R1", some "Chiuso", none, none, none, none⟩] =
      (execAttempt (fun m _ => if 2 ≤ m then UpdateAck.success else UpdateAck.failure "boom")
        2 [⟨"R1", some "Chiuso", none, none, none, none⟩], 2) ∧
    (runUpdateLoop (fun _ _ => UpdateAck.failure "boom")
        [⟨"R1", some "Chiuso", none, none, none, none⟩]).2 = 3 ∧
    (∃ rep, updateRecordsRun (fun _ _ => UpdateAck.failure "boom") [] [] [] =
        Except.ok rep ∧ rep.attemptsUsed ≤ 3) := by
  refine ⟨?_, ?_, ?_⟩
  · refine (retry_policy.2.1 _ _ 2 (by decide) (by omega) (by omega) ?_ ?_).1
    · intro m h1 h2
      have hm : m = 1 := by omega
      subst hm
      decide
    · intro i hi
      decide
  · refine (retry_policy.2.2.1 _ _ (by decide) ?_ ?_).1
    · intro i hi m hcon
      exact UpdateAck.noConfusion hcon
    · intro i hi m d heq
      cases heq
      decide
  · exact retry_policy.2.2.2 _ [] [] [] [] [] rfl rfl

/-- C6: the claim predicts at most one planned update intent per CRM record
identifier per attempt, thanks to deduplication of the external set before
matching. On a concrete run whose input file carries the same business key
on two rows, both rows survive to matching (only the fetch-query id list is
deduplicated) and the same CRM identifier receives two update intents in
each attempt, here visible as two Failed outcomes for the same identifier. -/
theorem dedup_before_matching_refuted :
    ((updateRecordsRun (fun _ _ => UpdateAck.failure "boom")
        [⟨none, none, none, none, "AB123CD", none, none, none⟩,
          ⟨none, none, none, none, "AB123CD", none, none, none⟩]
        [⟨"R1", "AB123CD", "AB123CD", "Attesa Consegna", false, none, none, none, none⟩]
        []).toOption.map (fun rep => rep.failed.map (fun oc => oc.id))) =
      some ["R1", "R1"] := by
  decide

theorem mem_matchedPairs (input : List NormRow) (ordini : List Ordine)
    (p : NormRow × Ordine) :
    p ∈ matchedPairs input ordini ↔
      p.1 ∈ input ∧ p.2 ∈ ordini ∧ p.2.targa = p.1.registration := by
  obtain ⟨r, o⟩ := p
  simp only [matchedPairs, List.mem_flatMap, List.mem_map, List.mem_filter]
  constructor
  · rintro ⟨r1, hr1, o1, ⟨ho1, ht1⟩, heq⟩
    obtain ⟨h1, h2⟩ := Prod.mk.injEq .. ▸ heq
    subst h1
    subst h2
    exact ⟨hr1, ho1, by simpa using ht1⟩
  · rintro ⟨hr, ho, ht⟩
    exact ⟨r, hr, o, ⟨ho, by simpa using ht⟩, rfl⟩

theorem matchedPairs_ids_nodup (input : List NormRow) (ordini : List Ordine)
    (hreg : (input.map (fun r => r.registration)).Nodup)
    (hid : (ordini.map (fun o => o.id)).Nodup) :
    ((matchedPairs input ordini).map (fun p => p.2.id)).Nodup := by
  induction input with
  | nil => exact List.nodup_nil
  | cons r rest ih =>
    have hsplit : matchedPairs (r :: rest) ordini =
        ((ordini.filter (fun o => o.targa = r.registration)).map (fun o => (r, o))) ++
          matchedPairs rest ordini := by
      simp [matchedPairs]
    rw [hsplit, List.map_append, List.nodup_append]
    simp only [List.map_cons, List.nodup_cons] at hreg
    refine ⟨?_, ih hreg.2, ?_⟩
    · rw [List.map_map]
      have hsub : ((ordini.filter (fun o => o.targa = r.registration)).map
          (fun o => o.id)).Sublist (ordini.map (fun o => o.id)) :=
        (List.filter_sublist ordini).map (fun o => o.id)
      exact hid.sublist (by exact hsub)
    · intro x hx hy
      rw [List.map_map, List.mem_map] at hx
      rw [List.mem_map] at hy
      obtain ⟨o, ho, hoe⟩ := hx
      obtain ⟨q, hq, hqe⟩ := hy
      rw [List.mem_filter] at ho
      rw [mem_matchedPairs] at hq
      have hoq : o = q.2 := by
        refine List.inj_on_of_nodup_map hid ho.1 hq.2.1 ?_
        have hoe2 : o.id = x := hoe
        rw [hoe2, ← hqe]
      apply hreg.1
      rw [List.mem_map]
      refine ⟨q.1, hq.1, ?_⟩
      have h1 : o.targa = r.registration := by simpa using ho.2
      rw [hoq, hq.2.2] at h1
      exact h1

/-- C6 (amended): the external set is deduplicated only when assembling the
fetch-query id list; the matching and planning steps operate on the raw row
multiset, so one planned intent per input row occurrence is produced. At
most one update intent per CRM record identifier is planned per attempt
exactly under the additional assumptions that the input registrations are
pairwise distinct and the CRM identifiers are pairwise distinct. -/
theorem planned_ids_nodup_of_unique_keys (input : List NormRow) (ordini : List Ordine)
    (hreg : (input.map (fun r => r.registration)).Nodup)
    (hid : (ordini.map (fun o => o.id)).Nodup) :
    (((planPass ((matchedPairs input ordini).map
        (fun p => (toPlanRow p.1 p.2, p.2)))).toModify).map (fun i => i.id)).Nodup := by
  have hrows : (((planPass ((matchedPairs input ordini).map
      (fun p => (toPlanRow p.1 p.2, p.2)))).toModify).map (fun i => i.id)).Sublist
      (((matchedPairs input ordini).map (fun p => (toPlanRow p.1 p.2, p.2))).map
        (fun p => p.1.id)) := by
    rw [planPass_toModify_eq, List.map_map]
    have hfs : ((((matchedPairs input ordini).map
        (fun p => (toPlanRow p.1 p.2, p.2))).filter
          (fun p => p.1.stato ≠ "Chiuso"))).Sublist
        ((matchedPairs input ordini).map (fun p => (toPlanRow p.1 p.2, p.2))) :=
      List.filter_sublist _
    exact hfs.map ((fun i : Intent => i.id) ∘ (fun p : PlanRow × Ordine => mkIntent p.1 p.2))
  have hid2 : (((matchedPairs input ordini).map (fun p => (toPlanRow p.1 p.2, p.2))).map
      (fun p => p.1.id)) = ((matchedPairs input ordini).map (fun p => p.2.id)) := by
    rw [List.map_map]
    rfl
  rw [hid2] at hrows
  exact (matchedPairs_ids_nodup input ordini hreg hid).sublist hrows

/-- Witness for C6 (amended) on a one-row, one-record run with distinct keys:
the planned intent identifiers are pairwise distinct. -/
theorem planned_ids_nodup_witness :
    (([⟨"AB123CD", none, none, false, none, none⟩] : List NormRow).map
        (fun r => r.registration)).Nodup ∧
    (([⟨"R1", "AB123CD", "AB123CD", "Attesa Consegna", false, none, none, none,
        none⟩] : List Ordine).map (fun o => o.id)).Nodup ∧
    (((planPass ((matchedPairs [⟨"AB123CD", none, none, false, none, none⟩]
        [⟨"R1", "AB123CD", "AB123CD", "Attesa Consegna", false, none, none, none,
          none⟩]).map (fun p => (toPlanRow p.1 p.2, p.2)))).toModify).map
      (fun i => i.id)).Nodup :=
  ⟨by decide, by decide,
    planned_ids_nodup_of_unique_keys
      [⟨"AB123CD", none, none, false, none, none⟩]
      [⟨"R1", "AB123CD", "AB123CD", "Attesa Consegna", false, none, none, none, none⟩]
      (by decide) (by decide)⟩

/-- C7: the claim predicts that a malformed odometer cell degrades to null
without aborting the batch. On a concrete row whose odometer cell is the
non-numeric string `abc` (all other cells null), normalization aborts the
whole batch with the conversion error instead: `.astype(Int32)` is applied
without error coercion, unlike the monetary column. -/
theorem odometer_degradation_refuted :
    normalizeRow ⟨none, none, none, some "abc", "AB123CD", none, none, none⟩ =
      Except.error "ValueError: invalid literal abc" := by
  rfl

/-- C7 (amended): during normalization, a malformed monetary cell degrades
to null without aborting the batch, while a malformed odometer cell aborts
the whole batch with a conversion error, as does a date cell that does not
match the fixed format `%Y-%m-%d %H:%M:%S`. -/
theorem cell_error_contract (raw : RawRow) :
    (∀ d1 d2 s, normalizeDate raw.leaseStart = Except.ok d1 →
      normalizeDate raw.leaseEndDate = Except.ok d2 →
      raw.returnDate = some s → parseDatetimeFixed s = none →
      normalizeRow raw =
        Except.error ("NormalizationError: time data " ++ s ++ " does not match format")) ∧
    (∀ d1 d2 d3 s, normalizeDate raw.leaseStart = Except.ok d1 →
      normalizeDate raw.leaseEndDate = Except.ok d2 →
      normalizeDate raw.returnDate = Except.ok d3 →
      raw.returnOdo = some s → parseIntLit s = none →
      normalizeRow raw = Except.error ("ValueError: invalid literal " ++ s)) ∧
    (∀ d1 d2 d3 v s, normalizeDate raw.leaseStart = Except.ok d1 →
      normalizeDate raw.leaseEndDate = Except.ok d2 →
      normalizeDate raw.returnDate = Except.ok d3 →
      normalizeOdo raw.returnOdo = Except.ok v →
      raw.eocTotale = some s → parseDecimal s = none →
      ∃ n, normalizeRow raw = Except.ok n ∧ n.eocTotale = none) := by
  refine ⟨?_, ?_, ?_⟩
  · intro d1 d2 s h1 h2 hrd hpf
    unfold normalizeRow
    rw [h1]
    simp only [bind, Except.bind]
    rw [h2]
    simp only [bind, Except.bind]
    rw [hrd]
    simp [normalizeDate, hpf]
  · intro d1 d2 d3 s h1 h2 h3 hro hint
    unfold normalizeRow
    rw [h1]
    simp only [bind, Except.bind]
    rw [h2]
    simp only [bind, Except.bind]
    rw [h3]
    simp only [bind, Except.bind]
    rw [hro]
    simp [normalizeOdo, hint]
  · intro d1 d2 d3 v s h1 h2 h3 hodo hs hpd
    unfold normalizeRow
    rw [h1]
    simp only [bind, Except.bind]
    rw [h2]
    simp only [bind, Except.bind]
    rw [h3]
    simp only [bind, Except.bind]
    rw [hodo]
    simp only [bind, Except.bind]
    refine ⟨_, rfl, ?_⟩
    rw [hs]
    simp [normalizeEoc, hpd]

/-- Witness for C7 (amended): a malformed date cell and a malformed odometer
cell each abort the batch, while a malformed monetary cell yields a
normalized row with a null monetary value. -/
theorem cell_error_contract_witness :
    normalizeRow ⟨none, none, some "2024-13-01 00:00:00", none, "AB123CD", none, none, none⟩ =
      Except.error ("NormalizationError: time data " ++ "2024-13-01 00:00:00" ++
        " does not match format") ∧
    normalizeRow ⟨none, none, none, some "1x", "AB123CD", none, none, none⟩ =
      Except.error ("ValueError: invalid literal " ++ "1x") ∧
    (∃ n, normalizeRow ⟨none, none, none, none, "AB123CD", none, none, some "abc"⟩ =
      Except.ok n ∧ n.eocTotale = none) := by
  refine ⟨?_, ?_, ?_⟩
  · exact (cell_error_contract _).1 none none "2024-13-01 00:00:00" rfl rfl rfl (by rfl)
  · exact (cell_error_contract _).2.1 none none none "1x" rfl rfl rfl rfl (by rfl)
  · exact (cell_error_contract _).2.2 none none none none "abc" rfl rfl rfl rfl rfl (by rfl)

/-- C8: the allowed termination-reason set is retrieved once per invocation
and validated across every record-type variant; when any record-type subset
disagrees with the others, the run aborts with `PicklistInconsistencyError`
before any update is attempted — the result is this error for every CRM
update oracle, so no update outcome can influence or be produced by the
run. -/
theorem picklist_inconsistency_aborts (oracle oracle2 : Nat → Intent → UpdateAck)
    (raws : List RawRow) (db : List Ordine) (v : List String)
    (rest : List (List String)) (input : List NormRow)
    (hnorm : normalizeAll raws = Except.ok input)
    (hdis : rest.all (fun w => keySetEq w v) = false) :
    updateRecordsRun oracle raws db (v :: rest) =
      Except.error "PicklistInconsistencyError" ∧
    updateRecordsRun oracle raws db (v :: rest) =
      updateRecordsRun oracle2 raws db (v :: rest) := by
  have hpick : getUniqueAvailableValuesPicklist (v :: rest) =
      Except.error "PicklistInconsistencyError" := by
    simp [getUniqueAvailableValuesPicklist, hdis]
  constructor
  · unfold updateRecordsRun
    rw [hnorm]
    simp only [bind, Except.bind]
    rw [hpick]
  · unfold updateRecordsRun
    rw [hnorm]
    simp only [bind, Except.bind]
    rw [hpick]

/-- Witness for C8: two record types whose allowed value sets differ make
the run abort with `PicklistInconsistencyError`, identically under a CRM
that would acknowledge every update and under one that would reject every
update. -/
theorem picklist_inconsistency_aborts_witness :
    normalizeAll ([] : List RawRow) = Except.ok [] ∧
    ([["B"]].all (fun w => keySetEq w ["A"]) = false) ∧
    updateRecordsRun (fun _ _ => UpdateAck.success) [] [] (["A"] :: [["B"]]) =
      Except.error "PicklistInconsistencyError" ∧
    updateRecordsRun (fun _ _ => UpdateAck.success) [] [] (["A"] :: [["B"]]) =
      updateRecordsRun (fun _ _ => UpdateAck.failure "boom") [] [] (["A"] :: [["B"]]) := by
  have h := picklist_inconsistency_aborts (fun _ _ => UpdateAck.success)
    (fun _ _ => UpdateAck.failure "boom") [] [] ["A"] [["B"]] [] rfl (by decide)
  exact ⟨rfl, by decide, h.1, h.2⟩

theorem toNat_ofNat_of_valid (n : Nat) (h : n.isValidChar) : (Char.ofNat n).toNat = n := by
  rw [Char.ofNat, dif_pos h]
  rfl

theorem toNat_upperChar_of_lower (c : Char) (h : isLowerA c = true) :
    (upperChar c).toNat = c.toNat - 32 := by
  have hb : 97 ≤ c.toNat ∧ c.toNat ≤ 122 := by
    simpa [isLowerA] using h
  rw [upperChar, if_pos h, toNat_ofNat_of_valid]
  exact Or.inl (by omega)

theorem toNat_lowerChar_of_upper (c : Char) (h : isUpperA c = true) :
    (lowerChar c).toNat = c.toNat + 32 := by
  have hb : 65 ≤ c.toNat ∧ c.toNat ≤ 90 := by
    simpa [isUpperA] using h
  rw [lowerChar, if_pos h, toNat_ofNat_of_valid]
  exact Or.inl (by omega)

theorem upperChar_of_not_lower (c : Char) (h : ¬ isLowerA c = true) : upperChar c = c := by
  rw [upperChar, if_neg h]

theorem lowerChar_of_not_upper (c : Char) (h : ¬ isUpperA c = true) : lowerChar c = c := by
  rw [lowerChar, if_neg h]

theorem isAsciiAlpha_upperChar (c : Char) : isAsciiAlpha (upperChar c) = isAsciiAlpha c := by
  by_cases h : isLowerA c = true
  · have hb : 97 ≤ c.toNat ∧ c.toNat ≤ 122 := by
      simpa [isLowerA] using h
    have ht := toNat_upperChar_of_lower c h
    have h1 : isAsciiAlpha (upperChar c) = true := by
      simp only [isAsciiAlpha, isUpperA, Bool.or_eq_true, Bool.and_eq_true,
        decide_eq_true_eq, ht]
      exact Or.inl ⟨by omega, by omega⟩
    have h2 : isAsciiAlpha c = true := by
      simp only [isAsciiAlpha, isLowerA, Bool.or_eq_true, Bool.and_eq_true,
        decide_eq_true_eq]
      exact Or.inr ⟨by omega, by omega⟩
    rw [h1, h2]
  · rw [upperChar_of_not_lower c h]

theorem isAsciiAlpha_lowerChar (c : Char) : isAsciiAlpha (lowerChar c) = isAsciiAlpha c := by
  by_cases h : isUpperA c = true
  · have hb : 65 ≤ c.toNat ∧ c.toNat ≤ 90 := by
      simpa [isUpperA] using h
    have ht := toNat_lowerChar_of_upper c h
    have h1 : isAsciiAlpha (lowerChar c) = true := by
      simp only [isAsciiAlpha, isLowerA, Bool.or_eq_true, Bool.and_eq_true,
        decide_eq_true_eq, ht]
      exact Or.inr ⟨by omega, by omega⟩
    have h2 : isAsciiAlpha c = true := by
      simp only [isAsciiAlpha, isUpperA, Bool.or_eq_true, Bool.and_eq_true,
        decide_eq_true_eq]
      exact Or.inl ⟨by omega, by omega⟩
    rw [h1, h2]
  · rw [lowerChar_of_not_upper c h]

theorem upperChar_upperChar (c : Char) : upperChar (upperChar c) = upperChar c := by
  by_cases h : isLowerA c = true
  · have hb : 97 ≤ c.toNat ∧ c.toNat ≤ 122 := by
      simpa [isLowerA] using h
    have ht := toNat_upperChar_of_lower c h
    have hnl : ¬ isLowerA (upperChar c) = true := by
      simp only [isLowerA, ht, Bool.and_eq_true, decide_eq_true_eq]
      omega
    exact upperChar_of_not_lower _ hnl
  · rw [upperChar_of_not_lower c h, upperChar_of_not_lower c h]

theorem lowerChar_lowerChar (c : Char) : lowerChar (lowerChar c) = lowerChar c := by
  by_cases h : isUpperA c = true
  · have hb : 65 ≤ c.toNat ∧ c.toNat ≤ 90 := by
      simpa [isUpperA] using h
    have ht := toNat_lowerChar_of_upper c h
    have hnu : ¬ isUpperA (lowerChar c) = true := by
      simp only [isUpperA, ht, Bool.and_eq_true, decide_eq_true_eq]
      omega
    exact lowerChar_of_not_upper _ hnu
  · rw [lowerChar_of_not_upper c h, lowerChar_of_not_upper c h]

theorem titleChars_idem (l : List Char) : ∀ b, titleChars b (titleChars b l) = titleChars b l := by
  induction l with
  | nil => intro b; rfl
  | cons c cs ih =>
    intro b
    by_cases ha : isAsciiAlpha c = true <;> cases b <;>
      simp [titleChars, ha, isAsciiAlpha_upperChar, isAsciiAlpha_lowerChar,
        upperChar_upperChar, lowerChar_lowerChar, ih true, ih false]

theorem parseDatetimeFixed_shape (s d : String) (h : parseDatetimeFixed s = some d) :
    d.toList.length = 10 := by
  unfold parseDatetimeFixed at h
  split at h
  · split at h
    · split at h
      · rw [Option.some.injEq] at h
        subst h
        rfl
      · exact absurd h (by simp)
    · exact absurd h (by simp)
  · exact absurd h (by simp)

theorem parseDatetimeFixed_of_length_ne (s : String) (h : s.toList.length ≠ 19) :
    parseDatetimeFixed s = none := by
  unfold parseDatetimeFixed
  split
  · next heq =>
    exfalso
    apply h
    rw [heq]
    rfl
  · rfl

/-- C9: the claim predicts that re-normalizing an already-normalized record
changes nothing. On the concrete date cell `2024-01-01 00:00:00`,
normalization produces `2024-01-01`, and normalizing that output again
aborts: the reformatted date no longer matches the strict parse format. -/
theorem renormalization_refuted :
    normalizeDate (some "2024-01-01 00:00:00") = Except.ok (some "2024-01-01") ∧
    normalizeDate (some "2024-01-01") =
      Except.error "NormalizationError: time data 2024-01-01 does not match format" :=
  ⟨rfl, rfl⟩

/-- C9 (amended): re-normalization is not a no-op on every field: the
title-casing of the free-text category field is idempotent, but every date
value produced by the date normalizer is rejected when fed back to the same
normalizer (the ten-character reformatted date cannot match the
nineteen-character strict format), aborting the batch. -/
theorem renormalization_contract :
    (∀ s : String, titleCase (titleCase s) = titleCase s) ∧
    (∀ s d, parseDatetimeFixed s = some d →
      ∃ e, normalizeDate (some d) = Except.error e) := by
  constructor
  · intro s
    show String.mk (titleChars false (titleChars false s.toList)) =
      String.mk (titleChars false s.toList)
    rw [titleChars_idem]
  · intro s d h
    have hl := parseDatetimeFixed_shape s d h
    have hn : parseDatetimeFixed d = none := parseDatetimeFixed_of_length_ne d (by omega)
    refine ⟨"NormalizationError: time data " ++ d ++ " does not match format", ?_⟩
    simp only [normalizeDate]
    rw [hn]

/-- Witness for C9 (amended): the title-casing of a concrete category value
is stable, and the concrete normalized date `2024-01-01` is rejected by
re-normalization. -/
theorem renormalization_contract_witness :
    titleCase (titleCase "incidente stradale") = titleCase "incidente stradale" ∧
    parseDatetimeFixed "2024-01-01 00:00:00" = some "2024-01-01" ∧
    (∃ e, normalizeDate (some "2024-01-01") = Except.error e) :=
  ⟨renormalization_contract.1 "incidente stradale", rfl,
    renormalization_contract.2 "2024-01-01 00:00:00" "2024-01-01" rfl⟩

theorem fetchOrdini_stato (db : List Ordine) (ids : List String) :
    ∀ o ∈ fetchOrdini db ids, o.stato = "Attesa Consegna" := by
  intro o ho
  rw [fetchOrdini, List.mem_filter] at ho
  have h2 := ho.2
  simp only [decide_eq_true_eq] at h2
  exact h2.2

/-- C10: the fetch query of `lib.build_soql` restricts every fetched CRM
record to `Stato__c = 'Attesa Consegna'`, so on every run that reaches
reporting the AlreadyClosed bucket (whose test is `Stato__c == 'Chiuso'`)
and the renewal-difference table (whose filter is `Stato__c == 'Live'`) are
both empty. -/
theorem fetched_status_invariant (oracle : Nat → Intent → UpdateAck) (raws : List RawRow)
    (db : List Ordine) (picks : List (List String)) (rep : Report)
    (h : updateRecordsRun oracle raws db picks = Except.ok rep) :
    rep.stillClosed = [] ∧ rep.rinnovatiDiff = [] := by
  unfold updateRecordsRun at h
  cases hn : normalizeAll raws with
  | error e =>
    rw [hn] at h
    simp only [bind, Except.bind] at h
    exact absurd h (by simp)
  | ok input =>
    rw [hn] at h
    simp only [bind, Except.bind] at h
    cases hp : getUniqueAvailableValuesPicklist picks with
    | error e =>
      rw [hp] at h
      exact absurd h (by simp)
    | ok allowed =>
      rw [hp] at h
      rw [Except.ok.injEq] at h
      subst h
      constructor
      · show (planPass ((matchedPairs input
            (fetchOrdini db (input.map (fun r => r.registration)))).map
              (fun p => (toPlanRow p.1 p.2, p.2)))).stillClosed = []
        rw [planPass_stillClosed_eq, List.filter_eq_nil_iff]
        intro r hr
        rw [List.map_map, List.mem_map] at hr
        obtain ⟨p, hp2, hpe⟩ := hr
        rw [mem_matchedPairs] at hp2
        have hst := fetchOrdini_stato db (input.map (fun r => r.registration)) p.2 hp2.2.1
        have hre : r.stato = p.2.stato := by
          rw [← hpe]
          rfl
        rw [hre, hst]
        simp
      · show rinnovatiDifference (matchedPairs input
            (fetchOrdini db (input.map (fun r => r.registration))))
            (fetchOrdini db (input.map (fun r => r.registration))) = []
        have hlive : (fetchOrdini db (input.map (fun r => r.registration))).filter
            (fun o => o.stato = "Live") = [] := by
          rw [List.filter_eq_nil_iff]
          intro o ho
          have hst := fetchOrdini_stato db (input.map (fun r => r.registration)) o ho
          rw [hst]
          simp
        simp [rinnovatiDifference, hlive]

/-- Witness for C10: a run over an empty input and an empty CRM data set
reaches reporting with empty AlreadyClosed and renewal-difference tables. -/
theorem fetched_status_invariant_witness :
    updateRecordsRun (fun _ _ => UpdateAck.success) [] [] [] =
      Except.ok ⟨[], [], [], [], [], [], [], [], 0⟩ ∧
    ((⟨[], [], [], [], [], [], [], [], 0⟩ : Report).stillClosed = [] ∧
      (⟨[], [], [], [], [], [], [], [], 0⟩ : Report).rinnovatiDiff = []) :=
  ⟨rfl, fetched_status_invariant (fun _ _ => UpdateAck.success) [] [] [] _ rfl⟩

/-- Witness for C2 on a one-record run under an acknowledging CRM: the
Success outcome of the executed intent is in the Success filter and not in
the Failed filter. -/
theorem matched_buckets_partition_witness :
    ((⟨200, "R1", "Success"⟩ : Outcome) ∈
      ((runUpdateLoop (fun _ _ => UpdateAck.success)
        (planPass [(⟨none, none, none, none, "R1", "Attesa Consegna"⟩,
          ⟨"R1", "AB123CD", "AB123CD", "Attesa Consegna", false, none, none, none,
            none⟩)]).toModify).1).filter (fun oc => oc.statusCode = 200)) ∧
    ((⟨200, "R1", "Success"⟩ : Outcome) ∉
      ((runUpdateLoop (fun _ _ => UpdateAck.success)
        (planPass [(⟨none, none, none, none, "R1", "Attesa Consegna"⟩,
          ⟨"R1", "AB123CD", "AB123CD", "Attesa Consegna", false, none, none, none,
            none⟩)]).toModify).1).filter (fun oc => oc.statusCode ≠ 200)) := by
  refine ⟨by decide, ?_⟩
  exact (matched_buckets_partition (fun _ _ => UpdateAck.success)
    [(⟨none, none, none, none, "R1", "Attesa Consegna"⟩,
      ⟨"R1", "AB123CD", "AB123CD", "Attesa Consegna", false, none, none, none,
        none⟩)]).2.2.2.2 ⟨200, "R1", "Success"⟩ (by decide)
